import Mathlib

/-!
Verification of the Progression Engine of the `iitmbs-learning-engine`
repository (xpEngine.js, storage.js, app.js), as a shallow embedding.

Conventions of the embedding:
* JS numbers that the program uses as integers are modelled as `Int`
  (they are only ever produced by `++`/`--`/`Math.max`/clamping from
  integer literals).
* Calendar dates are `YYYY-MM-DD` strings in the source; they carry no
  time-of-day component.  `new Date(s)` on such a string is the UTC
  midnight of that day, so the difference of two of them is an exact
  multiple of 86400000 ms and `Math.round(diff / 86400000)` is exactly
  the difference of the two calendar-day indices.  Dates are therefore
  modelled as `Int` day indices; string equality of two date strings is
  equality of day indices.
* `lec.revisionCount || 0`, `program.streakFreezes || 0`, ... are the
  identity on integer-valued fields (`0 || 0` is `0`), so they are
  dropped where the field is integer-typed in the model.
* JS objects holding program state are modelled as structures.
-/

namespace IITLearn

/-! ### XP rule table (xpEngine.js, `XP`) -/

namespace XP

def LECTURE_WATCH : Int := 5

def LECTURE_MEMORY : Int := 7

def LECTURE_ACTIVITY : Int := 1

def LECTURE_FINAL : Int := 5

def LECTURE_REVISION : Int := 10

def PRACTICE_Q : Int := 2

def GRADED_Q : Int := 2

def WEEKLY_MEMORY : Int := 10

def WEEKLY_FINAL : Int := 10

def WEEK_COMPLETE : Int := 15

def XP_PER_LEVEL : Int := 250

def MAX_FREEZES : Int := 3

end XP

/-! ### Data model (§3 of the spec; factories in app.js) -/

/-- A lecture record (app.js `makeLecture` shape). -/
structure Lecture where
  lectureId : Int
  lectureName : String
  watched : Bool
  memoryNote : Bool
  activityTotal : Int
  activityDone : Int
  finalNote : Bool
  revisionCount : Int
  notes : String
  xpEarned : Int
  deriving Repr, DecidableEq

/-- A `{ totalQuestions, doneQuestions }` assignment record. -/
structure Assignment where
  totalQuestions : Int
  doneQuestions : Int
  deriving Repr, DecidableEq

/-- A week record (app.js `makeWeek` shape). -/
structure Week where
  weekId : Int
  weekName : String
  lectures : List Lecture
  practiceAssignment : Assignment
  gradedAssignment : Assignment
  weeklyMemoryNote : Bool
  weeklyFinalNote : Bool
  weekCompleted : Bool
  xpEarned : Int
  deriving Repr, DecidableEq

/-- The root Program aggregate (storage.js `createDefaultProgram` shape).
`lastActiveDate` is `none` for the never-opened state (JS `null`);
`xpHistory` is the day-keyed XP map, as an association list. -/
structure Program where
  schemaVersion : Int
  weeks : List Week
  totalXP : Int
  level : Int
  streak : Int
  bestStreak : Int
  streakFreezes : Int
  lastActiveDate : Option Int
  xpHistory : List (Int × Int)
  deriving Repr, DecidableEq

/-! ### xpEngine.js -/

/-- xpEngine.js `clamp(n, lo, hi) = Math.max(lo, Math.min(hi, n || 0))`;
`n || 0` is the identity on integers. -/
def clamp (n lo hi : Int) : Int := max lo (min hi n)

/-- xpEngine.js `calcLectureXP`. -/
def calcLectureXP (lec : Lecture) : Int :=
  (if lec.watched then XP.LECTURE_WATCH else 0)
  + (if lec.memoryNote then XP.LECTURE_MEMORY else 0)
  + clamp lec.activityDone 0 lec.activityTotal * XP.LECTURE_ACTIVITY
  + (if lec.finalNote then XP.LECTURE_FINAL else 0)
  + lec.revisionCount * XP.LECTURE_REVISION

/-- The per-lecture effect of `recalculateTotalXP`: `lec.xpEarned = calcLectureXP(lec)`. -/
def recalcLecture (lec : Lecture) : Lecture :=
  { lec with xpEarned := calcLectureXP lec }

/-- The `coreComplete` loop flag of `recalculateTotalXP`: it starts as
`week.lectures.length > 0` and is cleared by any lecture with a missing
core action, which is exactly "non-empty and all lectures core-done". -/
def weekCoreFlag (week : Week) : Bool :=
  decide (0 < week.lectures.length)
  && week.lectures.all (fun l => l.watched && l.memoryNote && l.finalNote)

/-- One iteration of the week loop of xpEngine.js `recalculateTotalXP`:
returns the week with every `xpEarned` overwritten, together with the
week subtotal added to the grand total. -/
def recalculateWeekXP (week : Week) : Week × Int :=
  let lectures := week.lectures.map recalcLecture
  let lectureSum := (week.lectures.map calcLectureXP).sum
  let coreComplete := weekCoreFlag week
  let pd := clamp week.practiceAssignment.doneQuestions 0 week.practiceAssignment.totalQuestions
  let gd := clamp week.gradedAssignment.doneQuestions 0 week.gradedAssignment.totalQuestions
  let withAsg := lectureSum + (pd * XP.PRACTICE_Q + gd * XP.GRADED_Q)
  let withNotes := withAsg
    + (if week.weeklyMemoryNote then XP.WEEKLY_MEMORY else 0)
    + (if week.weeklyFinalNote then XP.WEEKLY_FINAL else 0)
  let weekTotal := withNotes
    + (if week.weekCompleted && coreComplete then XP.WEEK_COMPLETE else 0)
  ({ week with lectures := lectures, xpEarned := weekTotal }, weekTotal)

/-- xpEngine.js `recalculateTotalXP(program)`: mutates every `xpEarned`
in place and returns the grand total.  Modelled as returning the updated
program together with the grand total. -/
def recalculateTotalXP (program : Program) : Program × Int :=
  let pairs := program.weeks.map recalculateWeekXP
  ({ program with weeks := pairs.map Prod.fst }, (pairs.map Prod.snd).sum)

/-- xpEngine.js `isWeekCoreComplete`. -/
def isWeekCoreComplete (week : Week) : Bool :=
  if week.lectures.length = 0 then false
  else week.lectures.all (fun l => l.watched && l.memoryNote && l.finalNote)

/-- xpEngine.js `getLevel(totalXP) = Math.floor(totalXP / 250) + 1`
(`Math.floor` of an exact integer quotient is flooring division). -/
def getLevel (totalXP : Int) : Int :=
  Int.fdiv totalXP XP.XP_PER_LEVEL + 1

/-- xpEngine.js `getLevelProgress(totalXP) = (totalXP % 250) / 250`
as an exact rational; JS `%` on integers is truncating remainder
(`Int.tmod`). -/
def getLevelProgress (totalXP : Int) : ℚ :=
  ((Int.tmod totalXP XP.XP_PER_LEVEL : Int) : ℚ) / ((XP.XP_PER_LEVEL : Int) : ℚ)

/-- xpEngine.js `xpToNextLevel(totalXP) = 250 - (totalXP % 250)`. -/
def xpToNextLevel (totalXP : Int) : Int :=
  XP.XP_PER_LEVEL - Int.tmod totalXP XP.XP_PER_LEVEL

/-- Result record of xpEngine.js `updateStreak`. -/
structure StreakResult where
  streak : Int
  bestStreak : Int
  lastActiveDate : Option Int
  streakFreezes : Int
  freezeUsed : Bool
  deriving Repr, DecidableEq

/-- xpEngine.js `updateStreak(program, today)`.  `today` and
`lastActiveDate` are calendar-day indices (see the header comment:
YYYY-MM-DD strings carry no time of day, and the
`Math.round((new Date(today) - new Date(last)) / 86400000)` pipeline
computes exactly the difference of day indices). -/
def updateStreak (program : Program) (today : Int) : StreakResult :=
  let freezes := program.streakFreezes
  let best := program.bestStreak
  match program.lastActiveDate with
  | none =>
    -- First ever open
    ⟨1, max 1 best, some today, freezes, false⟩
  | some last =>
    if last = today then
      -- Already counted today
      ⟨program.streak, best, some today, freezes, false⟩
    else
      let diffDays := today - last
      if diffDays = 1 then
        -- Perfect — consecutive day
        ⟨program.streak + 1, max (program.streak + 1) best, some today, freezes, false⟩
      else if diffDays = 2 ∧ 0 < freezes then
        -- Missed exactly 1 day AND has a freeze — auto-use it
        ⟨program.streak + 1, max (program.streak + 1) best, some today, freezes - 1, true⟩
      else
        -- Streak broken
        ⟨1, best, some today, freezes, false⟩

/-! ### app.js — dispatch orchestrator -/

/-- app.js `makeWeek(name)`; the generated `weekId` is a parameter
(`generateId` draws on the clock and a RNG, both external). -/
def makeWeek (id : Int) (name : String) : Week :=
  { weekId := id, weekName := name, lectures := []
    practiceAssignment := ⟨0, 0⟩, gradedAssignment := ⟨0, 0⟩
    weeklyMemoryNote := false, weeklyFinalNote := false
    weekCompleted := false, xpEarned := 0 }

/-- app.js `makeLecture(name)`. -/
def makeLecture (id : Int) (name : String) : Lecture :=
  { lectureId := id, lectureName := name
    watched := false, memoryNote := false
    activityTotal := 0, activityDone := 0
    finalNote := false, revisionCount := 0
    notes := "", xpEarned := 0 }

/-- app.js `findWeek`: first week with the given id, or null. -/
def findWeek (p : Program) (id : Int) : Option Week :=
  p.weeks.find? (fun w => w.weekId = id)

/-- app.js `findLecture`. -/
def findLecture (p : Program) (wId lId : Int) : Option Lecture :=
  match findWeek p wId with
  | some w => w.lectures.find? (fun l => l.lectureId = lId)
  | none => none

/-- In-place mutation of the week object returned by `findWeek`:
replace the first week with the given id. -/
def updateWeekAt : List Week → Int → (Week → Week) → List Week
  | [], _, _ => []
  | w :: ws, id, f => if w.weekId = id then f w :: ws else w :: updateWeekAt ws id f

/-- In-place mutation of the lecture object returned by `findLecture`. -/
def updateLectureAt : List Lecture → Int → (Lecture → Lecture) → List Lecture
  | [], _, _ => []
  | l :: ls, id, f => if l.lectureId = id then f l :: ls else l :: updateLectureAt ls id f

def modifyWeek (p : Program) (id : Int) (f : Week → Week) : Program :=
  { p with weeks := updateWeekAt p.weeks id f }

def modifyLecture (p : Program) (wId lId : Int) (f : Lecture → Lecture) : Program :=
  modifyWeek p wId (fun w => { w with lectures := updateLectureAt w.lectures lId f })

/-- The `action` strings of app.js `LECTURE_STEP`. -/
inductive LecStep where
  | actTotalInc | actTotalDec | actDoneInc | actDoneDec | revInc | revDec
  deriving Repr, DecidableEq

/-- app.js `LECTURE_STEP` switch body, acting on the found lecture. -/
def lectureStepFn : LecStep → Lecture → Lecture
  | .actTotalInc, lec => { lec with activityTotal := lec.activityTotal + 1 }
  | .actTotalDec, lec =>
    let t := max 0 (lec.activityTotal - 1)
    { lec with activityTotal := t, activityDone := min lec.activityDone t }
  | .actDoneInc, lec =>
    if lec.activityDone < lec.activityTotal then
      { lec with activityDone := lec.activityDone + 1 }
    else lec
  | .actDoneDec, lec =>
    if 0 < lec.activityDone then { lec with activityDone := lec.activityDone - 1 } else lec
  | .revInc, lec => { lec with revisionCount := lec.revisionCount + 1 }
  | .revDec, lec => { lec with revisionCount := max 0 (lec.revisionCount - 1) }

/-- The `dir` strings of app.js `ASSIGNMENT_STEP`. -/
inductive AsgStep where
  | totalInc | totalDec | doneInc | doneDec
  deriving Repr, DecidableEq

/-- app.js `ASSIGNMENT_STEP` switch body, acting on the chosen assignment. -/
def assignmentStepFn : AsgStep → Assignment → Assignment
  | .totalInc, a => { a with totalQuestions := a.totalQuestions + 1 }
  | .totalDec, a =>
    let t := max 0 (a.totalQuestions - 1)
    { a with totalQuestions := t, doneQuestions := min a.doneQuestions t }
  | .doneInc, a =>
    if a.doneQuestions < a.totalQuestions then
      { a with doneQuestions := a.doneQuestions + 1 }
    else a
  | .doneDec, a =>
    if 0 < a.doneQuestions then { a with doneQuestions := a.doneQuestions - 1 } else a

/-- The `type` payload of `ASSIGNMENT_STEP`: practice or graded. -/
inductive AsgType where
  | practice | graded
  deriving Repr, DecidableEq

def weekAssignmentStep (ty : AsgType) (dir : AsgStep) (w : Week) : Week :=
  match ty with
  | .practice => { w with practiceAssignment := assignmentStepFn dir w.practiceAssignment }
  | .graded => { w with gradedAssignment := assignmentStepFn dir w.gradedAssignment }

/-- The `field` payload of `LECTURE_TOGGLE` (ui.js dispatches exactly
`watched`, `memoryNote` and `finalNote` — all three core actions). -/
inductive LecBoolField where
  | watched | memoryNote | finalNote
  deriving Repr, DecidableEq

def setLecBool (field : LecBoolField) (value : Bool) (lec : Lecture) : Lecture :=
  match field with
  | .watched => { lec with watched := value }
  | .memoryNote => { lec with memoryNote := value }
  | .finalNote => { lec with finalNote := value }

/-- The `field` payload of `WEEK_TOGGLE` (ui.js dispatches
`weeklyMemoryNote`, `weeklyFinalNote` and `weekCompleted`). -/
inductive WeekField where
  | weeklyMemoryNote | weeklyFinalNote | weekCompleted
  deriving Repr, DecidableEq

def setWeekBool (field : WeekField) (value : Bool) (w : Week) : Week :=
  match field with
  | .weeklyMemoryNote => { w with weeklyMemoryNote := value }
  | .weeklyFinalNote => { w with weeklyFinalNote := value }
  | .weekCompleted => { w with weekCompleted := value }

/-- The committed mutation of app.js `DELETE_LECTURE` on the found week:
filter out the lecture, then
`if (w.weekCompleted && !isWeekCoreComplete(w)) w.weekCompleted = false`. -/
def deleteLectureFromWeek (w : Week) (lectureId : Int) : Week :=
  let w1 := { w with lectures := w.lectures.filter (fun l => l.lectureId ≠ lectureId) }
  if w1.weekCompleted && !isWeekCoreComplete w1 then { w1 with weekCompleted := false } else w1

/-- app.js `xpHistory` read: `program.xpHistory[today] || 0`. -/
def histGet : List (Int × Int) → Int → Int
  | [], _ => 0
  | kv :: rest, k => if kv.1 = k then kv.2 else histGet rest k

/-- app.js `xpHistory` write: `program.xpHistory[k] = v` (overwrite the
existing key in place, else append). -/
def histSet : List (Int × Int) → Int → Int → List (Int × Int)
  | [], k, v => [(k, v)]
  | kv :: rest, k, v => if kv.1 = k then (k, v) :: rest else kv :: histSet rest k v

/-- app.js `syncXP()`: overwrite `totalXP` and `level` from the
aggregator; return the XP gained (clamped at 0). -/
def syncXP (p : Program) : Program × Int :=
  let r := recalculateTotalXP p
  ({ r.1 with totalXP := r.2, level := getLevel r.2 }, max 0 (r.2 - p.totalXP))

/-- app.js `recordXP(gained)`: no-op unless `gained > 0`; otherwise add
to today's history entry and prune entries older than 365 days
(`k < cutoffStr` on ISO dates is day-index comparison against
`today - 365`). -/
def recordXP (p : Program) (today gained : Int) : Program :=
  if gained ≤ 0 then p
  else
    let hist := histSet p.xpHistory today (histGet p.xpHistory today + gained)
    { p with xpHistory := hist.filter (fun kv => decide (today - 365 ≤ kv.1)) }

/-- app.js `xpCommit()` minus the save/render effects: `syncXP` then
`recordXP`. -/
def xpCommit (p : Program) (today : Int) : Program :=
  let r := syncXP p
  recordXP r.1 today r.2

/-- The dispatch actions of app.js `ACTION_HANDLERS` that mutate the
Program (UI-only actions — expand/collapse, graph/stats visibility,
export, opening the import picker — do not touch it).  For the
modal-guarded actions the payload carries the value the user confirmed;
generated ids are parameters. -/
inductive Action where
  | addWeek (id : Int) (name : String)
  | editWeekName (weekId : Int) (name : String)
  | deleteWeek (weekId : Int)
  | addLecture (weekId id : Int) (name : String)
  | renameLecture (weekId lectureId : Int) (name : String)
  | deleteLecture (weekId lectureId : Int)
  | saveLectureNote (weekId lectureId : Int) (text : String)
  | lectureToggle (weekId lectureId : Int) (field : LecBoolField) (value : Bool)
  | lectureStep (weekId lectureId : Int) (act : LecStep)
  | assignmentStep (weekId : Int) (ty : AsgType) (dir : AsgStep)
  | weekToggle (weekId : Int) (field : WeekField) (value : Bool)
  deriving Repr, DecidableEq

/-- Observable outcome of one dispatch: the new Program, whether
`saveProgram` was invoked, and whether a warning ("advisory") toast was
shown. -/
structure DispatchOut where
  program : Program
  saved : Bool
  advisory : Bool
  deriving Repr, DecidableEq

/-- `xpCommit` outcome: recompute, record, save, render. -/
def commitOut (p : Program) (today : Int) : DispatchOut :=
  ⟨xpCommit p today, true, false⟩

/-- The silently-discarded outcome for a stale week/lecture id. -/
def noopOut (p : Program) : DispatchOut := ⟨p, false, false⟩

/-- app.js `dispatch(action, payload)`, restricted to the
Program-mutating handlers; `today` is the device-clock date used by
`recordXP`. -/
def dispatch (p : Program) (today : Int) : Action → DispatchOut
  | .addWeek id name =>
    commitOut { p with weeks := p.weeks ++ [makeWeek id name] } today
  | .editWeekName wId name =>
    match findWeek p wId with
    | none => noopOut p
    | some _ => commitOut (modifyWeek p wId (fun w => { w with weekName := name })) today
  | .deleteWeek wId =>
    match findWeek p wId with
    | none => noopOut p
    | some _ => commitOut { p with weeks := p.weeks.filter (fun w => w.weekId ≠ wId) } today
  | .addLecture wId id name =>
    match findWeek p wId with
    | none => noopOut p
    | some _ =>
      commitOut (modifyWeek p wId (fun w => { w with lectures := w.lectures ++ [makeLecture id name] })) today
  | .renameLecture wId lId name =>
    match findLecture p wId lId with
    | none => noopOut p
    | some _ => commitOut (modifyLecture p wId lId (fun l => { l with lectureName := name })) today
  | .deleteLecture wId lId =>
    match findWeek p wId, findLecture p wId lId with
    | some _, some _ => commitOut (modifyWeek p wId (fun w => deleteLectureFromWeek w lId)) today
    | _, _ => noopOut p
  | .saveLectureNote wId lId text =>
    match findLecture p wId lId with
    | none => noopOut p
    | some _ => ⟨modifyLecture p wId lId (fun l => { l with notes := text }), true, false⟩
  | .lectureToggle wId lId field value =>
    match findLecture p wId lId with
    | none => noopOut p
    | some _ =>
      let p1 := modifyLecture p wId lId (setLecBool field value)
      -- Unchecking a core action removes week completion (all three
      -- LECTURE_TOGGLE fields are core actions)
      if value then commitOut p1 today
      else
        match findWeek p1 wId with
        | some w =>
          if w.weekCompleted then
            ⟨xpCommit (modifyWeek p1 wId (fun w2 => { w2 with weekCompleted := false })) today,
              true, true⟩
          else commitOut p1 today
        | none => commitOut p1 today
  | .lectureStep wId lId act =>
    match findLecture p wId lId with
    | none => noopOut p
    | some _ => commitOut (modifyLecture p wId lId (lectureStepFn act)) today
  | .assignmentStep wId ty dir =>
    match findWeek p wId with
    | none => noopOut p
    | some _ => commitOut (modifyWeek p wId (weekAssignmentStep ty dir)) today
  | .weekToggle wId field value =>
    match findWeek p wId with
    | none => noopOut p
    | some w =>
      if field = WeekField.weekCompleted ∧ value = true ∧ isWeekCoreComplete w = false then
        -- Gating rejection: advisory toast, render, no mutation, no save
        ⟨p, false, true⟩
      else
        let p1 := modifyWeek p wId (setWeekBool field value)
        let p2 :=
          if field = WeekField.weekCompleted ∧ value = true then
            if p1.streakFreezes < XP.MAX_FREEZES then
              { p1 with streakFreezes := p1.streakFreezes + 1 }
            else p1
          else p1
        commitOut p2 today

/-- The runtime shape of storage.js `createDefaultProgram()` (the state
a fresh install starts from). -/
def defaultProgram : Program :=
  { schemaVersion := 4, weeks := [], totalXP := 0, level := 1
    streak := 0, bestStreak := 0, streakFreezes := 0
    lastActiveDate := none, xpHistory := [] }

/-- Run a list of dispatched actions from a starting state. -/
def runActions (p : Program) (today : Int) (acts : List Action) : Program :=
  acts.foldl (fun q a => (dispatch q today a).program) p

/-! ### storage.js — persisted-document model

Stored documents are JSON; `JVal` models a parsed JSON value.  `migrate`
and the import validator of storage.js act directly on the parsed
object, so they are embedded at this level.  JS object property access
and assignment become first-match lookup and overwrite-or-append on the
field list.  (Entries of `weeks`/`lectures` that are not objects, and
non-numeric `schemaVersion`/`streak` values, never occur in a stored or
import-validated document and are outside the model: on such values the
source would raise a TypeError inside `migrate` or silently misbehave,
and the embedding maps them through unchanged.) -/

inductive JVal where
  | null
  | bool (b : Bool)
  | num (n : Int)
  | str (s : String)
  | arr (elems : List JVal)
  | obj (fields : List (String × JVal))
  deriving Repr, BEq

/-- Fields of a JSON object. -/
abbrev JObj := List (String × JVal)

/-- Property read `o[k]`: `none` models `undefined`. -/
def getF : JObj → String → Option JVal
  | [], _ => none
  | kv :: rest, k => if kv.1 = k then some kv.2 else getF rest k

/-- Property write `o[k] = v`: overwrite in place, else append. -/
def setF : JObj → String → JVal → JObj
  | [], k, v => [(k, v)]
  | kv :: rest, k, v => if kv.1 = k then (k, v) :: rest else kv :: setF rest k v

/-- `x || 0` on a numeric-or-undefined value (a present `0` is falsy and
yields `0`, which coincides with its own value). -/
def jsNumOr0 : Option JVal → Int
  | some (.num n) => n
  | _ => 0

/-- storage.js `migrate`, v1→v2 transform on one lecture:
`if (lec.revisionCount === undefined) lec.revisionCount = 0`. -/
def migLecAddRevisionCount (lec : JVal) : JVal :=
  match lec with
  | .obj fs =>
    if (getF fs "revisionCount").isNone then .obj (setF fs "revisionCount" (.num 0)) else lec
  | _ => lec

/-- storage.js `migrate`, v2→v3 transform on one lecture:
`if (lec.notes === undefined) lec.notes = ''`. -/
def migLecAddNotes (lec : JVal) : JVal :=
  match lec with
  | .obj fs => if (getF fs "notes").isNone then .obj (setF fs "notes" (.str "")) else lec
  | _ => lec

/-- `for (const lec of (week.lectures || [])) ...` applied to one week:
map the transform over the lectures array when it exists. -/
def migWeekLectures (f : JVal → JVal) (week : JVal) : JVal :=
  match week with
  | .obj fs =>
    match getF fs "lectures" with
    | some (.arr ls) => .obj (setF fs "lectures" (.arr (ls.map f)))
    | _ => week
  | _ => week

/-- `for (const week of (data.weeks || [])) ...`: map a per-week
transform over the weeks array when it exists. -/
def mapWeeks (data : JObj) (f : JVal → JVal) : JObj :=
  match getF data "weeks" with
  | some (.arr ws) => setF data "weeks" (.arr (ws.map f))
  | _ => data

/-- storage.js `createDefaultProgram()`, keys in source order. -/
def createDefaultProgram : JObj :=
  [("schemaVersion", .num 4), ("weeks", .arr []), ("totalXP", .num 0),
   ("level", .num 1), ("streak", .num 0), ("bestStreak", .num 0),
   ("streakFreezes", .num 0), ("lastActiveDate", .null), ("xpHistory", .obj [])]

/-- One iteration of the back-fill loop of storage.js `migrate`:
`if (data[key] === undefined) data[key] = defaults[key]`. -/
def bfStep (d : JObj) (kv : String × JVal) : JObj :=
  if (getF d kv.1).isNone then setF d kv.1 kv.2 else d

/-- The defensive back-fill loop at the end of storage.js `migrate`:
`for (const key of Object.keys(defaults)) ...`. -/
def backfillDefaults (data : JObj) : JObj :=
  createDefaultProgram.foldl bfStep data

/-- The `if (v < 2)` block of storage.js `migrate`: add
`revisionCount := 0` to every lecture lacking it, then
`data.schemaVersion = 2`. -/
def migrateV2 (data : JObj) (v : Int) : JObj :=
  if v < 2 then
    setF (mapWeeks data (migWeekLectures migLecAddRevisionCount)) "schemaVersion" (.num 2)
  else data

/-- The `if (v < 3)` block: add `notes := ''` to every lecture lacking
it, default `bestStreak` to `data.streak || 0` when absent, then
`data.schemaVersion = 3`. -/
def migrateV3 (data : JObj) (v : Int) : JObj :=
  if v < 3 then
    let t1 := mapWeeks data (migWeekLectures migLecAddNotes)
    let t2 :=
      if (getF t1 "bestStreak").isNone then
        setF t1 "bestStreak" (.num (jsNumOr0 (getF t1 "streak")))
      else t1
    setF t2 "schemaVersion" (.num 3)
  else data

/-- The `if (v < 4)` block: default `streakFreezes` to 0 when absent,
then `data.schemaVersion = 4`. -/
def migrateV4 (data : JObj) (v : Int) : JObj :=
  if v < 4 then
    let t1 :=
      if (getF data "streakFreezes").isNone then setF data "streakFreezes" (.num 0)
      else data
    setF t1 "schemaVersion" (.num 4)
  else data

/-- storage.js `migrate(data)`.  `v` is captured once up front
(`data.schemaVersion || 0`), so every transform whose guard `v < n`
holds runs, in version order, before the back-fill. -/
def migrate (data : JObj) : JObj :=
  let v := jsNumOr0 (getF data "schemaVersion")
  backfillDefaults (migrateV4 (migrateV3 (migrateV2 data v) v) v)

/-- The per-week effect of the versioned transforms of `migrate` for a
document that entered at version `v`. -/
def migrateWeekTransform (v : Int) (wk : JVal) : JVal :=
  let w1 := if v < 2 then migWeekLectures migLecAddRevisionCount wk else wk
  if v < 3 then migWeekLectures migLecAddNotes w1 else w1

/-- Property read on an arbitrary JSON value (`undefined` off objects). -/
def getJ (j : JVal) (k : String) : Option JVal :=
  match j with
  | .obj fs => getF fs k
  | _ => none

/-- The shape every import must have to pass `parseImportedBackup`:
parseable, an object, a `weeks` array and a numeric `totalXP`. -/
def backupShapeOK : Option JVal → Prop
  | some (.obj fs) =>
    (∃ ws, getF fs "weeks" = some (.arr ws)) ∧ (∃ n, getF fs "totalXP" = some (.num n))
  | _ => False

/-- storage.js `parseImportedBackup(jsonText)`.  The input is the parsed
JSON value, `none` when `JSON.parse` throws (the catch branch).  A JS
array passes the `typeof data === 'object'` check but has no `weeks`
property, so it falls to the second rejection. -/
def parseImportedBackup (input : Option JVal) : Except String JVal :=
  match input with
  | none => .error "Could not read file: invalid JSON."
  | some (.obj fs) =>
    match getF fs "weeks" with
    | some (.arr _) =>
      match getF fs "totalXP" with
      | some (.num _) => .ok (.obj (migrate fs))
      | _ => .error "Missing \"totalXP\" — invalid backup file."
    | _ => .error "Missing \"weeks\" — this is not an IIT Learn backup."
  | some (.arr _) => .error "Missing \"weeks\" — this is not an IIT Learn backup."
  | some _ => .error "Not a valid JSON file."

/-! ### Derived definitions and invariant predicates -/

/-- The week subtotal without the completion bonus, exactly as
accumulated by the week loop of `recalculateTotalXP`. -/
def weekBaseSubtotal (week : Week) : Int :=
  (week.lectures.map calcLectureXP).sum
  + (clamp week.practiceAssignment.doneQuestions 0 week.practiceAssignment.totalQuestions
      * XP.PRACTICE_Q
    + clamp week.gradedAssignment.doneQuestions 0 week.gradedAssignment.totalQuestions
      * XP.GRADED_Q)
  + (if week.weeklyMemoryNote then XP.WEEKLY_MEMORY else 0)
  + (if week.weeklyFinalNote then XP.WEEKLY_FINAL else 0)

/-- §3 counter invariant for one lecture: `0 ≤ activityDone ≤ activityTotal`. -/
def lectureOK (l : Lecture) : Prop :=
  0 ≤ l.activityDone ∧ l.activityDone ≤ l.activityTotal

/-- §3 counter invariant for one assignment:
`0 ≤ doneQuestions ≤ totalQuestions`. -/
def asgOK (a : Assignment) : Prop :=
  0 ≤ a.doneQuestions ∧ a.doneQuestions ≤ a.totalQuestions

/-- §3 counter invariants of one week: every lecture and both
assignments. -/
def weekOK (w : Week) : Prop :=
  (∀ l ∈ w.lectures, lectureOK l) ∧ asgOK w.practiceAssignment ∧ asgOK w.gradedAssignment

/-- §3 counter invariants of the whole Program. -/
def countersOK (p : Program) : Prop := ∀ w ∈ p.weeks, weekOK w

instance (p : Program) : Decidable (countersOK p) := by
  unfold countersOK weekOK lectureOK asgOK
  infer_instance

/-! ### Concrete demonstration states (used by witnesses) -/

/-- The program of the spec's §8 streak scenario: `streak = 7`,
`bestStreak = 7`, two freezes, last active on day index 12. -/
def streakDemoProgram : Program :=
  { schemaVersion := 4, weeks := [], totalXP := 0, level := 1, streak := 7,
    bestStreak := 7, streakFreezes := 2, lastActiveDate := some 12, xpHistory := [] }

/-- A lecture with `activityDone` far in excess of `activityTotal`. -/
def demoLecture : Lecture :=
  { lectureId := 1, lectureName := "L1", watched := true, memoryNote := false,
    activityTotal := 3, activityDone := 99, finalNote := false, revisionCount := 2,
    notes := "", xpEarned := 0 }

/-- A completed week with one (non-core-complete) lecture and excess
assignment counters. -/
def demoWeek : Week :=
  { weekId := 1, weekName := "W1", lectures := [demoLecture],
    practiceAssignment := ⟨10, 25⟩, gradedAssignment := ⟨5, 7⟩,
    weeklyMemoryNote := true, weeklyFinalNote := false, weekCompleted := true,
    xpEarned := 0 }

/-- A program holding only `demoWeek`. -/
def demoProgram : Program :=
  { schemaVersion := 4, weeks := [demoWeek], totalXP := 0, level := 1, streak := 0,
    bestStreak := 0, streakFreezes := 0, lastActiveDate := none, xpHistory := [] }

/-- A lecture with all three core actions done. -/
def coreLecture : Lecture :=
  { lectureId := 2, lectureName := "L2", watched := true, memoryNote := true,
    activityTotal := 0, activityDone := 0, finalNote := true, revisionCount := 0,
    notes := "", xpEarned := 0 }

/-- A core-complete, not-yet-completed week. -/
def coreWeek : Week :=
  { weekId := 5, weekName := "W5", lectures := [coreLecture],
    practiceAssignment := ⟨0, 0⟩, gradedAssignment := ⟨0, 0⟩,
    weeklyMemoryNote := false, weeklyFinalNote := false, weekCompleted := false,
    xpEarned := 0 }

/-- A program holding only `coreWeek`, with no freezes banked. -/
def coreWeekProgram : Program :=
  { schemaVersion := 4, weeks := [coreWeek], totalXP := 0, level := 1, streak := 0,
    bestStreak := 0, streakFreezes := 0, lastActiveDate := none, xpHistory := [] }

/-- A stored document from before versioning (no `schemaVersion`,
lectures lacking `revisionCount` and `notes`). -/
def demoOldDoc : JObj :=
  [("weeks", .arr [.obj [("weekId", .str "w1"),
      ("lectures", .arr [.obj [("lectureId", .str "l1"), ("watched", .bool true)]])]]),
   ("totalXP", .num 40), ("streak", .num 3), ("lastActiveDate", .str "2026-01-10"),
   ("xpHistory", .obj [("2026-01-10", .num 40)])]

/-- A syntactically valid JSON import that is not an object. -/
def demoBadImport : Option JVal := some (.num 5)

/-- A minimal import passing the shape checks. -/
def demoGoodImport : JObj := [("weeks", .arr []), ("totalXP", .num 40)]

/-! ### Aggregator lemmas -/

/-- `calcLectureXP` never reads `xpEarned`, so overwriting `xpEarned`
does not change the computed value. -/
theorem calcLectureXP_recalcLecture (l : Lecture) :
    calcLectureXP (recalcLecture l) = calcLectureXP l := rfl

theorem recalcLecture_idem (l : Lecture) :
    recalcLecture (recalcLecture l) = recalcLecture l := rfl

theorem recalcLecture_watched (l : Lecture) : (recalcLecture l).watched = l.watched := rfl

theorem recalcLecture_memoryNote (l : Lecture) :
    (recalcLecture l).memoryNote = l.memoryNote := rfl

theorem recalcLecture_finalNote (l : Lecture) :
    (recalcLecture l).finalNote = l.finalNote := rfl

theorem recalculateWeekXP_idem (w : Week) :
    recalculateWeekXP (recalculateWeekXP w).1 = recalculateWeekXP w := by
  simp only [recalculateWeekXP, weekCoreFlag, List.map_map, Function.comp_def,
    List.all_map, List.length_map, calcLectureXP_recalcLecture, recalcLecture_idem,
    recalcLecture_watched, recalcLecture_memoryNote, recalcLecture_finalNote]

/-- **C1** For every Program state, running the XP Aggregator
(`recalculateTotalXP`) twice with no intervening mutation returns the
same grand total both times, and leaves every week's and every
lecture's `xpEarned` field after the second run identical to its value
after the first run (the second run reproduces the first run's updated
program and total exactly). -/
theorem recalculateTotalXP_idempotent (p : Program) :
    recalculateTotalXP (recalculateTotalXP p).1 = recalculateTotalXP p := by
  simp only [recalculateTotalXP, List.map_map, Function.comp_def]
  simp [Prod.mk.injEq, recalculateWeekXP_idem]

/-! ### Level calculator -/

/-- **C6** For every non-negative integer `totalXP`:
`getLevel` is `⌊totalXP / 250⌋ + 1`, `getLevelProgress` is
`(totalXP mod 250) / 250` and lies in `[0, 1)`, `xpToNextLevel` is
`250 − (totalXP mod 250)`; and the concrete anchors
`0 ↦ level 1 with 250 to next`, `249 ↦ level 1`,
`250 ↦ level 2 with progress 0`, `125 ↦ progress 1/2` hold. -/
theorem levelCalculator_correct (totalXP : Int) (h : 0 ≤ totalXP) :
    getLevel totalXP = ⌊(totalXP : ℚ) / 250⌋ + 1
    ∧ getLevelProgress totalXP = ((totalXP % 250 : Int) : ℚ) / 250
    ∧ 0 ≤ getLevelProgress totalXP
    ∧ getLevelProgress totalXP < 1
    ∧ xpToNextLevel totalXP = 250 - totalXP % 250
    ∧ getLevel 0 = 1 ∧ xpToNextLevel 0 = 250
    ∧ getLevel 249 = 1
    ∧ getLevel 250 = 2 ∧ getLevelProgress 250 = 0
    ∧ getLevelProgress 125 = 1 / 2 := by
  have h250 : ((250 : ℕ) : ℚ) = (250 : ℚ) := by norm_num
  have hql : getLevel totalXP = ⌊(totalXP : ℚ) / 250⌋ + 1 := by
    rw [getLevel, XP.XP_PER_LEVEL, Int.fdiv_eq_ediv _ (by norm_num), ← h250,
      Rat.floor_intCast_div_natCast totalXP 250]
    norm_num
  have hmod : Int.tmod totalXP 250 = totalXP % 250 :=
    Int.tmod_eq_emod h (by norm_num)
  have hprog : getLevelProgress totalXP = ((totalXP % 250 : Int) : ℚ) / 250 := by
    rw [getLevelProgress, XP.XP_PER_LEVEL, hmod]
    norm_num
  have hlo : (0 : Int) ≤ totalXP % 250 := Int.emod_nonneg _ (by norm_num)
  have hhi : totalXP % 250 < 250 := Int.emod_lt_of_pos _ (by norm_num)
  have ht250 : Int.tmod 250 250 = 0 := by decide
  have ht125 : Int.tmod 125 250 = 125 := by decide
  refine ⟨hql, hprog, ?_, ?_, ?_, by decide, by decide, by decide, by decide,
    by norm_num [getLevelProgress, XP.XP_PER_LEVEL, ht250],
    by norm_num [getLevelProgress, XP.XP_PER_LEVEL, ht125]⟩
  · rw [hprog]
    positivity
  · rw [hprog]
    rw [div_lt_one (by norm_num)]
    exact_mod_cast hhi
  · rw [xpToNextLevel, XP.XP_PER_LEVEL, hmod]

theorem levelCalculator_correct_witness :
    getLevelProgress 125 = ((125 % 250 : Int) : ℚ) / 250
    ∧ getLevelProgress 125 < 1 :=
  ⟨(levelCalculator_correct 125 (by norm_num)).2.1,
   (levelCalculator_correct 125 (by norm_num)).2.2.2.1⟩

/-! ### Streak machine -/

/-- **C2** `updateStreak` implements exactly the five-case table:
(1) no `lastActiveDate` → streak 1, best `max(best,1)`, no freeze use;
(2) already counted today → state unchanged; (3) gap 1 → increment;
(4) gap 2 with a freeze available → increment, consume one freeze,
`freezeUsed`; (5) otherwise → reset to 1, best and freezes unchanged.
In every case the returned `lastActiveDate` is `today`.  The gap is the
difference of calendar-day indices (date-only values: see the module
header on the `Math.round((Date(today)-Date(last))/86400000)` pipeline),
and case 4 is the only case whose result decrements the freeze pool. -/
theorem updateStreak_caseTable (p : Program) (today : Int) :
    (p.lastActiveDate = none →
      updateStreak p today =
        ⟨1, max p.bestStreak 1, some today, p.streakFreezes, false⟩)
    ∧ (p.lastActiveDate = some today →
      updateStreak p today =
        ⟨p.streak, p.bestStreak, some today, p.streakFreezes, false⟩)
    ∧ (∀ last, p.lastActiveDate = some last → today - last = 1 →
      updateStreak p today =
        ⟨p.streak + 1, max p.bestStreak (p.streak + 1), some today, p.streakFreezes, false⟩)
    ∧ (∀ last, p.lastActiveDate = some last → today - last = 2 → 0 < p.streakFreezes →
      updateStreak p today =
        ⟨p.streak + 1, max p.bestStreak (p.streak + 1), some today,
          p.streakFreezes - 1, true⟩)
    ∧ (∀ last, p.lastActiveDate = some last → last ≠ today → today - last ≠ 1 →
        ¬(today - last = 2 ∧ 0 < p.streakFreezes) →
      updateStreak p today = ⟨1, p.bestStreak, some today, p.streakFreezes, false⟩)
    ∧ (updateStreak p today).lastActiveDate = some today := by
  refine ⟨fun h => ?_, fun h => ?_, fun last h h1 => ?_, fun last h h2 hf => ?_,
    fun last h hne h1 h2 => ?_, ?_⟩
  · simp [updateStreak, h, max_comm]
  · simp [updateStreak, h]
  · have hne : last ≠ today := by omega
    simp [updateStreak, h, hne, h1, max_comm]
  · have hne : last ≠ today := by omega
    have hne1 : today - last ≠ 1 := by omega
    simp [updateStreak, h, hne, hne1, h2, hf, max_comm]
  · simp only [updateStreak, h]
    rw [if_neg hne, if_neg h1, if_neg h2]
  · unfold updateStreak
    rcases p.lastActiveDate with _ | last
    · rfl
    · dsimp only
      by_cases he : last = today
      · simp [he]
      · rw [if_neg he]
        split
        · rfl
        · split <;> rfl

theorem updateStreak_caseTable_witness :
    updateStreak streakDemoProgram 14 = ⟨8, 8, some 14, 1, true⟩ := by
  have h := (updateStreak_caseTable streakDemoProgram 14).2.2.2.1 12 rfl
    (by norm_num) (by norm_num [streakDemoProgram])
  simpa [streakDemoProgram] using h

/-! ### XP formula and clamping -/

theorem recalculateWeekXP_snd_eq (w : Week) :
    (recalculateWeekXP w).2 =
      weekBaseSubtotal w
      + (if w.weekCompleted && weekCoreFlag w then XP.WEEK_COMPLETE else 0) := rfl

/-- **C3** `calcLectureXP` is exactly
`5·watched + 7·memoryNote + 5·finalNote + 1·clamp(activityDone,0,activityTotal)
+ 10·revisionCount`; the clamped activity term never exceeds
`activityTotal × 1`; and the week subtotal contains exactly
`2·clamp(doneQuestions,0,totalQuestions)` for each of the practice and
graded assignments, each bounded by `2·totalQuestions`. -/
theorem xpFormula_clamped (lec : Lecture) (w : Week) :
    calcLectureXP lec =
      5 * (if lec.watched then (1 : Int) else 0)
      + 7 * (if lec.memoryNote then (1 : Int) else 0)
      + 5 * (if lec.finalNote then (1 : Int) else 0)
      + 1 * clamp lec.activityDone 0 lec.activityTotal
      + 10 * lec.revisionCount
    ∧ (0 ≤ lec.activityTotal →
        1 * clamp lec.activityDone 0 lec.activityTotal ≤ 1 * lec.activityTotal)
    ∧ (recalculateWeekXP w).2 =
        (w.lectures.map calcLectureXP).sum
        + 2 * clamp w.practiceAssignment.doneQuestions 0 w.practiceAssignment.totalQuestions
        + 2 * clamp w.gradedAssignment.doneQuestions 0 w.gradedAssignment.totalQuestions
        + (if w.weeklyMemoryNote then (10 : Int) else 0)
        + (if w.weeklyFinalNote then (10 : Int) else 0)
        + (if w.weekCompleted && weekCoreFlag w then (15 : Int) else 0)
    ∧ (0 ≤ w.practiceAssignment.totalQuestions →
        2 * clamp w.practiceAssignment.doneQuestions 0 w.practiceAssignment.totalQuestions
          ≤ 2 * w.practiceAssignment.totalQuestions)
    ∧ (0 ≤ w.gradedAssignment.totalQuestions →
        2 * clamp w.gradedAssignment.doneQuestions 0 w.gradedAssignment.totalQuestions
          ≤ 2 * w.gradedAssignment.totalQuestions) := by
  have hclamp : ∀ d t : Int, 0 ≤ t → clamp d 0 t ≤ t := fun d t ht =>
    max_le ht (min_le_left t d)
  refine ⟨?_, fun h => ?_, ?_, fun h => ?_, fun h => ?_⟩
  · simp only [calcLectureXP, XP.LECTURE_WATCH, XP.LECTURE_MEMORY, XP.LECTURE_ACTIVITY,
      XP.LECTURE_FINAL, XP.LECTURE_REVISION]
    split_ifs <;> ring
  · simpa using hclamp lec.activityDone lec.activityTotal h
  · simp only [recalculateWeekXP, XP.PRACTICE_Q, XP.GRADED_Q, XP.WEEKLY_MEMORY,
      XP.WEEKLY_FINAL, XP.WEEK_COMPLETE]
    ring
  · have := hclamp w.practiceAssignment.doneQuestions w.practiceAssignment.totalQuestions h
    linarith
  · have := hclamp w.gradedAssignment.doneQuestions w.gradedAssignment.totalQuestions h
    linarith

theorem xpFormula_clamped_witness :
    1 * clamp demoLecture.activityDone 0 demoLecture.activityTotal
        ≤ 1 * demoLecture.activityTotal
    ∧ 2 * clamp demoWeek.practiceAssignment.doneQuestions 0
          demoWeek.practiceAssignment.totalQuestions
        ≤ 2 * demoWeek.practiceAssignment.totalQuestions :=
  ⟨(xpFormula_clamped demoLecture demoWeek).2.1 (by norm_num [demoLecture]),
   (xpFormula_clamped demoLecture demoWeek).2.2.2.1 (by norm_num [demoWeek])⟩

/-! ### Week-completion bonus gating -/

/-- The `weekCompleted` flag after the `DELETE_LECTURE` mutation: it
survives exactly when it was set and the filtered week is still
core-complete. -/
theorem deleteLectureFromWeek_weekCompleted (w : Week) (lid : Int) :
    (deleteLectureFromWeek w lid).weekCompleted =
      (w.weekCompleted &&
        isWeekCoreComplete
          { w with lectures := w.lectures.filter (fun l => l.lectureId ≠ lid) }) := by
  cases hc : isWeekCoreComplete
      { w with lectures := w.lectures.filter (fun l => l.lectureId ≠ lid) } <;>
    cases hw : w.weekCompleted <;>
    simp_all [deleteLectureFromWeek]

/-- **C4** The +15 bonus is in a week's subtotal iff `weekCompleted`
holds and every lecture satisfies `watched ∧ memoryNote ∧ finalNote`,
with a zero-lecture week never receiving the bonus; and the
`DELETE_LECTURE` mutation clears `weekCompleted` synchronously when the
deletion leaves the week non-core-complete, so the recomputed subtotal
of the deleted-from week carries no bonus. -/
theorem weekCompletionBonus_gating (w : Week) (lid : Int) :
    ((recalculateWeekXP w).2 = weekBaseSubtotal w +
      (if w.weekCompleted = true ∧ w.lectures ≠ []
          ∧ ∀ l ∈ w.lectures, l.watched = true ∧ l.memoryNote = true ∧ l.finalNote = true
        then 15 else 0))
    ∧ (w.lectures = [] → (recalculateWeekXP w).2 = weekBaseSubtotal w)
    ∧ (w.weekCompleted = true →
        isWeekCoreComplete
          { w with lectures := w.lectures.filter (fun l => l.lectureId ≠ lid) } = false →
        (deleteLectureFromWeek w lid).weekCompleted = false)
    ∧ ((deleteLectureFromWeek w lid).weekCompleted = false →
        (recalculateWeekXP (deleteLectureFromWeek w lid)).2 =
          weekBaseSubtotal (deleteLectureFromWeek w lid)) := by
  have hbonus : ∀ v : Week, (recalculateWeekXP v).2 = weekBaseSubtotal v +
      (if v.weekCompleted = true ∧ v.lectures ≠ []
          ∧ ∀ l ∈ v.lectures, l.watched = true ∧ l.memoryNote = true ∧ l.finalNote = true
        then 15 else 0) := by
    intro v
    rw [recalculateWeekXP_snd_eq]
    congr 1
    rw [XP.WEEK_COMPLETE]
    refine if_congr ?_ rfl rfl
    simp [weekCoreFlag, List.all_eq_true, List.length_pos, and_assoc]
  refine ⟨hbonus w, fun h => ?_, fun h1 h2 => ?_, fun h => ?_⟩
  · rw [hbonus w]
    simp [h]
  · rw [deleteLectureFromWeek_weekCompleted, h2]
    simp
  · rw [hbonus]
    simp [h]

theorem weekCompletionBonus_gating_witness :
    (deleteLectureFromWeek demoWeek 1).weekCompleted = false :=
  (weekCompletionBonus_gating demoWeek 1).2.2.1 (by rfl) (by decide)

/-! ### Orchestrator lemmas -/

theorem recordXP_streakFreezes (p : Program) (t g : Int) :
    (recordXP p t g).streakFreezes = p.streakFreezes := by
  unfold recordXP
  split <;> rfl

theorem recordXP_weeks (p : Program) (t g : Int) :
    (recordXP p t g).weeks = p.weeks := by
  unfold recordXP
  split <;> rfl

theorem xpCommit_streakFreezes (p : Program) (t : Int) :
    (xpCommit p t).streakFreezes = p.streakFreezes := by
  unfold xpCommit
  rw [recordXP_streakFreezes]
  rfl

theorem xpCommit_weeks (p : Program) (t : Int) :
    (xpCommit p t).weeks = p.weeks.map (fun w => (recalculateWeekXP w).1) := by
  unfold xpCommit
  rw [recordXP_weeks]
  show (List.map recalculateWeekXP p.weeks).map Prod.fst = _
  rw [List.map_map]
  rfl

theorem modifyWeek_streakFreezes (p : Program) (id : Int) (f : Week → Week) :
    (modifyWeek p id f).streakFreezes = p.streakFreezes := rfl

theorem commitOut_streakFreezes (p : Program) (t : Int) :
    (commitOut p t).program.streakFreezes = p.streakFreezes :=
  xpCommit_streakFreezes p t

/-! ### C8: gated week completion -/

/-- **C8** When `WEEK_TOGGLE` tries to set `weekCompleted := true` on a
week whose lecture-core predicate is false, the action is rejected: the
Program is returned unchanged (hence that week's flag, every `xpEarned`,
`totalXP`, `streakFreezes` and `xpHistory` are untouched), nothing is
saved, and only the advisory warning toast is shown. -/
theorem weekToggle_gated_rejection (p : Program) (today wId : Int) (w : Week)
    (hfind : findWeek p wId = some w) (hcore : isWeekCoreComplete w = false) :
    dispatch p today (.weekToggle wId .weekCompleted true) =
      ⟨p, false, true⟩ := by
  simp [dispatch, hfind, hcore]

theorem weekToggle_gated_rejection_witness :
    dispatch demoProgram 20 (.weekToggle 1 .weekCompleted true) =
      ⟨demoProgram, false, true⟩ :=
  weekToggle_gated_rejection demoProgram 20 1 demoWeek (by rfl) (by decide)

/-! ### C10: streak-freeze economy of WEEK_TOGGLE -/

/-- Freeze-count bound for every single dispatch step. -/
theorem dispatch_streakFreezes_le (p : Program) (today : Int) (a : Action)
    (h : p.streakFreezes ≤ 3) :
    (dispatch p today a).program.streakFreezes ≤ 3 := by
  cases a with
  | addWeek id name =>
    simpa [dispatch, commitOut, xpCommit_streakFreezes] using h
  | editWeekName wId name =>
    cases hf : findWeek p wId <;>
      simpa [dispatch, hf, noopOut, commitOut, xpCommit_streakFreezes,
        modifyWeek_streakFreezes] using h
  | deleteWeek wId =>
    cases hf : findWeek p wId <;>
      simpa [dispatch, hf, noopOut, commitOut, xpCommit_streakFreezes] using h
  | addLecture wId id name =>
    cases hf : findWeek p wId <;>
      simpa [dispatch, hf, noopOut, commitOut, xpCommit_streakFreezes,
        modifyWeek_streakFreezes] using h
  | renameLecture wId lId name =>
    cases hf : findLecture p wId lId <;>
      simpa [dispatch, hf, noopOut, commitOut, xpCommit_streakFreezes, modifyLecture,
        modifyWeek_streakFreezes] using h
  | deleteLecture wId lId =>
    cases hfw : findWeek p wId <;> cases hfl : findLecture p wId lId <;>
      simpa [dispatch, hfw, hfl, noopOut, commitOut, xpCommit_streakFreezes,
        modifyWeek_streakFreezes] using h
  | saveLectureNote wId lId text =>
    cases hf : findLecture p wId lId <;>
      simpa [dispatch, hf, noopOut, modifyLecture, modifyWeek_streakFreezes] using h
  | lectureToggle wId lId field value =>
    cases hf : findLecture p wId lId with
    | none => simpa [dispatch, hf, noopOut] using h
    | some lec =>
      simp only [dispatch, hf]
      cases value with
      | true => simpa [commitOut, xpCommit_streakFreezes, modifyLecture,
          modifyWeek_streakFreezes] using h
      | false =>
        cases hw : findWeek (modifyLecture p wId lId (setLecBool field false)) wId with
        | none => simpa [hw, commitOut, xpCommit_streakFreezes, modifyLecture,
            modifyWeek_streakFreezes] using h
        | some w =>
          cases hwc : w.weekCompleted <;>
            simpa [hw, hwc, commitOut, xpCommit_streakFreezes, modifyLecture,
              modifyWeek_streakFreezes] using h
  | lectureStep wId lId act =>
    cases hf : findLecture p wId lId <;>
      simpa [dispatch, hf, noopOut, commitOut, xpCommit_streakFreezes, modifyLecture,
        modifyWeek_streakFreezes] using h
  | assignmentStep wId ty dir =>
    cases hf : findWeek p wId <;>
      simpa [dispatch, hf, noopOut, commitOut, xpCommit_streakFreezes,
        modifyWeek_streakFreezes] using h
  | weekToggle wId field value =>
    cases hf : findWeek p wId with
    | none => simpa [dispatch, hf, noopOut] using h
    | some w =>
      simp only [dispatch, hf]
      split
      · simpa using h
      · simp only [commitOut, xpCommit_streakFreezes]
        split
        · split
          · next hlt =>
            rw [modifyWeek_streakFreezes, XP.MAX_FREEZES] at hlt
            show (modifyWeek p wId (setWeekBool field value)).streakFreezes + 1 ≤ 3
            rw [modifyWeek_streakFreezes]
            omega
          · simpa [modifyWeek_streakFreezes] using h
        · simpa [modifyWeek_streakFreezes] using h

/-- **C10** A streak freeze is granted on every `WEEK_TOGGLE` that sets
`weekCompleted := true` on a core-complete week while the pool is below
3 (with no memory of the week having been completed before); setting it
back to `false` never removes a freeze; every action keeps the pool at
or below 3; and checking–unchecking–rechecking one week earns two
freezes rather than at most one. -/
theorem weekToggle_freezeEconomy (p : Program) (today wId : Int) (w : Week) :
    (findWeek p wId = some w → isWeekCoreComplete w = true → p.streakFreezes < 3 →
      (dispatch p today (.weekToggle wId .weekCompleted true)).program.streakFreezes
        = p.streakFreezes + 1)
    ∧ (∀ field, (dispatch p today (.weekToggle wId field false)).program.streakFreezes
        = p.streakFreezes)
    ∧ (∀ a : Action, p.streakFreezes ≤ 3 →
        (dispatch p today a).program.streakFreezes ≤ 3)
    ∧ (runActions coreWeekProgram 20
        [.weekToggle 5 .weekCompleted true, .weekToggle 5 .weekCompleted false,
         .weekToggle 5 .weekCompleted true]).streakFreezes = 2 := by
  refine ⟨fun hfind hcore hlt => ?_, fun field => ?_, fun a h => dispatch_streakFreezes_le p today a h, by decide⟩
  · simp only [dispatch, hfind]
    rw [if_neg (by simp [hcore])]
    rw [if_pos (⟨trivial, trivial⟩ : True ∧ True)]
    rw [if_pos (by rw [modifyWeek_streakFreezes, XP.MAX_FREEZES]; exact hlt)]
    rw [commitOut_streakFreezes]
    rfl
  · cases hf : findWeek p wId with
    | none => simp [dispatch, hf, noopOut]
    | some v =>
      simp only [dispatch, hf]
      rw [if_neg (by simp)]
      rw [if_neg (by simp)]
      rw [commitOut_streakFreezes, modifyWeek_streakFreezes]

theorem weekToggle_freezeEconomy_witness :
    (dispatch coreWeekProgram 20 (.weekToggle 5 .weekCompleted true)).program.streakFreezes
      = coreWeekProgram.streakFreezes + 1 :=
  (weekToggle_freezeEconomy coreWeekProgram 20 5 coreWeek).1 (by rfl) (by decide) (by decide)

/-! ### C9: counter invariants -/

theorem lectureStepFn_ok (s : LecStep) (l : Lecture) (h : lectureOK l) :
    lectureOK (lectureStepFn s l) := by
  rcases h with ⟨h1, h2⟩
  cases s <;> dsimp only [lectureStepFn, lectureOK] <;> (try split_ifs) <;>
    (try dsimp only) <;> constructor <;> omega

theorem assignmentStepFn_ok (s : AsgStep) (a : Assignment) (h : asgOK a) :
    asgOK (assignmentStepFn s a) := by
  rcases h with ⟨h1, h2⟩
  cases s <;> dsimp only [assignmentStepFn, asgOK] <;> (try split_ifs) <;>
    (try dsimp only) <;> constructor <;> omega

theorem updateLectureAt_forall (P : Lecture → Prop) (ls : List Lecture) (id : Int)
    (f : Lecture → Lecture) (hf : ∀ l, P l → P (f l)) (h : ∀ l ∈ ls, P l) :
    ∀ l ∈ updateLectureAt ls id f, P l := by
  induction ls with
  | nil => intro l hl; simp [updateLectureAt] at hl
  | cons x xs ih =>
    intro l hl
    simp only [updateLectureAt] at hl
    split at hl
    · rcases List.mem_cons.1 hl with rfl | hl2
      · exact hf x (h x (List.mem_cons_self x xs))
      · exact h l (List.mem_cons_of_mem x hl2)
    · rcases List.mem_cons.1 hl with rfl | hl2
      · exact h l (List.mem_cons_self l xs)
      · exact ih (fun y hy => h y (List.mem_cons_of_mem x hy)) l hl2

theorem updateWeekAt_forall (P : Week → Prop) (ws : List Week) (id : Int)
    (f : Week → Week) (hf : ∀ w, P w → P (f w)) (h : ∀ w ∈ ws, P w) :
    ∀ w ∈ updateWeekAt ws id f, P w := by
  induction ws with
  | nil => intro w hw; simp [updateWeekAt] at hw
  | cons x xs ih =>
    intro w hw
    simp only [updateWeekAt] at hw
    split at hw
    · rcases List.mem_cons.1 hw with rfl | hw2
      · exact hf x (h x (List.mem_cons_self x xs))
      · exact h w (List.mem_cons_of_mem x hw2)
    · rcases List.mem_cons.1 hw with rfl | hw2
      · exact h w (List.mem_cons_self w xs)
      · exact ih (fun y hy => h y (List.mem_cons_of_mem x hy)) w hw2

theorem countersOK_modifyWeek (p : Program) (id : Int) (f : Week → Week)
    (hf : ∀ w, weekOK w → weekOK (f w)) (h : countersOK p) :
    countersOK (modifyWeek p id f) :=
  updateWeekAt_forall weekOK p.weeks id f hf h

theorem weekOK_updateLectures (w : Week) (lId : Int) (f : Lecture → Lecture)
    (hf : ∀ l, lectureOK l → lectureOK (f l)) (h : weekOK w) :
    weekOK { w with lectures := updateLectureAt w.lectures lId f } :=
  ⟨updateLectureAt_forall lectureOK w.lectures lId f hf h.1, h.2.1, h.2.2⟩

theorem countersOK_modifyLecture (p : Program) (wId lId : Int) (f : Lecture → Lecture)
    (hf : ∀ l, lectureOK l → lectureOK (f l)) (h : countersOK p) :
    countersOK (modifyLecture p wId lId f) :=
  countersOK_modifyWeek p wId _ (fun w hw => weekOK_updateLectures w lId f hf hw) h

theorem weekOK_recalc (w : Week) (h : weekOK w) : weekOK (recalculateWeekXP w).1 := by
  refine ⟨fun l hl => ?_, h.2.1, h.2.2⟩
  rw [show (recalculateWeekXP w).1.lectures = w.lectures.map recalcLecture from rfl] at hl
  rcases List.mem_map.1 hl with ⟨l0, hl0, rfl⟩
  exact h.1 l0 hl0

theorem countersOK_xpCommit (p : Program) (t : Int) (h : countersOK p) :
    countersOK (xpCommit p t) := by
  intro w hw
  rw [xpCommit_weeks] at hw
  rcases List.mem_map.1 hw with ⟨w0, hw0, rfl⟩
  exact weekOK_recalc w0 (h w0 hw0)

theorem commitOut_program (q : Program) (t : Int) :
    (commitOut q t).program = xpCommit q t := rfl

theorem weekOK_makeWeek (id : Int) (nm : String) : weekOK (makeWeek id nm) :=
  ⟨fun l hl => absurd hl (List.not_mem_nil l), ⟨le_refl 0, le_refl 0⟩,
    ⟨le_refl 0, le_refl 0⟩⟩

theorem lectureOK_makeLecture (id : Int) (nm : String) : lectureOK (makeLecture id nm) :=
  ⟨le_refl 0, le_refl 0⟩

theorem weekOK_deleteLecture (w : Week) (lId : Int) (h : weekOK w) :
    weekOK (deleteLectureFromWeek w lId) := by
  have hfilter : ∀ l ∈ w.lectures.filter (fun l => l.lectureId ≠ lId), lectureOK l :=
    fun l hl => h.1 l (List.mem_of_mem_filter hl)
  unfold deleteLectureFromWeek
  dsimp only
  split
  · exact ⟨hfilter, h.2.1, h.2.2⟩
  · exact ⟨hfilter, h.2.1, h.2.2⟩

/-- One dispatch step preserves the §3 counter invariants. -/
theorem dispatch_countersOK (p : Program) (today : Int) (a : Action)
    (h : countersOK p) : countersOK (dispatch p today a).program := by
  cases a with
  | addWeek id name =>
    rw [show (dispatch p today (.addWeek id name)).program
      = xpCommit { p with weeks := p.weeks ++ [makeWeek id name] } today from rfl]
    apply countersOK_xpCommit
    intro w hw
    rcases List.mem_append.1 hw with hw1 | hw2
    · exact h w hw1
    · rw [List.mem_singleton.1 hw2]
      exact weekOK_makeWeek id name
  | editWeekName wId name =>
    cases hf : findWeek p wId with
    | none => simpa [dispatch, hf, noopOut] using h
    | some w =>
      simp only [dispatch, hf, commitOut_program]
      exact countersOK_xpCommit _ today (countersOK_modifyWeek p wId _ (fun v hv => hv) h)
  | deleteWeek wId =>
    cases hf : findWeek p wId with
    | none => simpa [dispatch, hf, noopOut] using h
    | some w =>
      simp only [dispatch, hf, commitOut_program]
      apply countersOK_xpCommit
      intro v hv
      exact h v (List.mem_of_mem_filter hv)
  | addLecture wId id name =>
    cases hf : findWeek p wId with
    | none => simpa [dispatch, hf, noopOut] using h
    | some w =>
      simp only [dispatch, hf, commitOut_program]
      apply countersOK_xpCommit
      apply countersOK_modifyWeek p wId _ (fun v hv => ?_) h
      refine ⟨fun l hl => ?_, hv.2.1, hv.2.2⟩
      rcases List.mem_append.1 hl with hl1 | hl2
      · exact hv.1 l hl1
      · rw [List.mem_singleton.1 hl2]
        exact lectureOK_makeLecture id name
  | renameLecture wId lId name =>
    cases hf : findLecture p wId lId with
    | none => simpa [dispatch, hf, noopOut] using h
    | some lec =>
      simp only [dispatch, hf, commitOut_program]
      exact countersOK_xpCommit _ today
        (countersOK_modifyLecture p wId lId _ (fun l hl => hl) h)
  | deleteLecture wId lId =>
    cases hfw : findWeek p wId with
    | none => simpa [dispatch, hfw, noopOut] using h
    | some w =>
      cases hfl : findLecture p wId lId with
      | none => simpa [dispatch, hfw, hfl, noopOut] using h
      | some lec =>
        simp only [dispatch, hfw, hfl, commitOut_program]
        exact countersOK_xpCommit _ today
          (countersOK_modifyWeek p wId _ (fun v hv => weekOK_deleteLecture v lId hv) h)
  | saveLectureNote wId lId text =>
    cases hf : findLecture p wId lId with
    | none => simpa [dispatch, hf, noopOut] using h
    | some lec =>
      simp only [dispatch, hf]
      exact countersOK_modifyLecture p wId lId _ (fun l hl => hl) h
  | lectureToggle wId lId field value =>
    cases hf : findLecture p wId lId with
    | none => simpa [dispatch, hf, noopOut] using h
    | some lec =>
      have hp1 : countersOK (modifyLecture p wId lId (setLecBool field value)) :=
        countersOK_modifyLecture p wId lId _
          (fun l hl => by cases field <;> exact hl) h
      simp only [dispatch, hf]
      cases value with
      | true => exact countersOK_xpCommit _ today hp1
      | false =>
        cases hw : findWeek (modifyLecture p wId lId (setLecBool field false)) wId with
        | none => simpa [hw, commitOut_program] using countersOK_xpCommit _ today hp1
        | some w =>
          cases hwc : w.weekCompleted with
          | false => simpa [hw, hwc, commitOut_program] using countersOK_xpCommit _ today hp1
          | true =>
            simp only [hw, hwc, if_true, commitOut_program]
            exact countersOK_xpCommit _ today
              (countersOK_modifyWeek _ wId _ (fun v hv => hv) hp1)
  | lectureStep wId lId act =>
    cases hf : findLecture p wId lId with
    | none => simpa [dispatch, hf, noopOut] using h
    | some lec =>
      simp only [dispatch, hf, commitOut_program]
      exact countersOK_xpCommit _ today
        (countersOK_modifyLecture p wId lId _ (lectureStepFn_ok act) h)
  | assignmentStep wId ty dir =>
    cases hf : findWeek p wId with
    | none => simpa [dispatch, hf, noopOut] using h
    | some w =>
      simp only [dispatch, hf, commitOut_program]
      apply countersOK_xpCommit
      apply countersOK_modifyWeek p wId _ (fun v hv => ?_) h
      cases ty with
      | practice => exact ⟨hv.1, assignmentStepFn_ok dir _ hv.2.1, hv.2.2⟩
      | graded => exact ⟨hv.1, hv.2.1, assignmentStepFn_ok dir _ hv.2.2⟩
  | weekToggle wId field value =>
    cases hf : findWeek p wId with
    | none => simpa [dispatch, hf, noopOut] using h
    | some w =>
      simp only [dispatch, hf]
      split
      · exact h
      · have hp1 : countersOK (modifyWeek p wId (setWeekBool field value)) :=
          countersOK_modifyWeek p wId _ (fun v hv => by cases field <;> exact hv) h
        split
        · split
          · exact countersOK_xpCommit _ today (fun v hv => hp1 v hv)
          · exact countersOK_xpCommit _ today hp1
        · exact countersOK_xpCommit _ today hp1

/-- **C9** Every dispatched action preserves the §3 counter invariants
`0 ≤ activityDone ≤ activityTotal` and
`0 ≤ doneQuestions ≤ totalQuestions`; every Program reachable from the
default state through the dispatch handlers satisfies them; and the
total-decrement steppers clamp the done counter to the new total. -/
theorem counterInvariants_preserved (today : Int) (p : Program) (a : Action)
    (acts : List Action) :
    (countersOK p → countersOK (dispatch p today a).program)
    ∧ countersOK (runActions defaultProgram today acts)
    ∧ (∀ l : Lecture, (lectureStepFn .actTotalDec l).activityDone
        = min l.activityDone (lectureStepFn .actTotalDec l).activityTotal)
    ∧ (∀ asg : Assignment, (assignmentStepFn .totalDec asg).doneQuestions
        = min asg.doneQuestions (assignmentStepFn .totalDec asg).totalQuestions) := by
  refine ⟨dispatch_countersOK p today a, ?_, fun l => rfl, fun asg => rfl⟩
  have hrun : ∀ (l : List Action) (q : Program),
      countersOK q → countersOK (runActions q today l) := by
    intro l
    induction l with
    | nil => exact fun q hq => hq
    | cons x xs ih => exact fun q hq => ih _ (dispatch_countersOK q today x hq)
  exact hrun acts defaultProgram (fun w hw => absurd hw (List.not_mem_nil w))

theorem counterInvariants_preserved_witness :
    countersOK (dispatch coreWeekProgram 20 (.lectureStep 5 2 .actDoneInc)).program :=
  (counterInvariants_preserved 20 coreWeekProgram (.lectureStep 5 2 .actDoneInc) []).1
    (by decide)

/-! ### Stored-document lemmas -/

theorem getF_setF_self (fs : JObj) (k : String) (v : JVal) :
    getF (setF fs k v) k = some v := by
  induction fs with
  | nil => simp [setF, getF]
  | cons kv rest ih =>
    by_cases hk : kv.1 = k
    · simp [setF, hk, getF]
    · simp [setF, hk, getF, ih]

theorem getF_setF_ne (fs : JObj) (k k2 : String) (v : JVal) (h : k ≠ k2) :
    getF (setF fs k v) k2 = getF fs k2 := by
  induction fs with
  | nil => simp [setF, getF, h]
  | cons kv rest ih =>
    by_cases hk : kv.1 = k
    · simp [setF, hk, getF, h]
    · simp [setF, hk, getF, ih]

theorem bfStep_isSome_mono (d : JObj) (kv : String × JVal) (k : String)
    (h : (getF d k).isSome) : (getF (bfStep d kv) k).isSome := by
  unfold bfStep
  split
  · by_cases hk : kv.1 = k
    · rw [hk, getF_setF_self]
      rfl
    · rw [getF_setF_ne _ _ _ _ hk]
      exact h
  · exact h

theorem bfStep_self_isSome (d : JObj) (kv : String × JVal) :
    (getF (bfStep d kv) kv.1).isSome := by
  unfold bfStep
  split
  · rw [getF_setF_self]
    rfl
  · next hcond =>
    rcases hx : getF d kv.1 with _ | x
    · rw [hx] at hcond
      exact absurd rfl hcond
    · rfl

theorem foldl_bfStep_isSome (ds : JObj) (d : JObj) (k : String)
    (h : (getF d k).isSome) : (getF (ds.foldl bfStep d) k).isSome := by
  induction ds generalizing d with
  | nil => exact h
  | cons kv rest ih => exact ih _ (bfStep_isSome_mono d kv k h)

theorem foldl_bfStep_mem (ds : JObj) (d : JObj) (kv : String × JVal)
    (hmem : kv ∈ ds) : (getF (ds.foldl bfStep d) kv.1).isSome := by
  induction ds generalizing d with
  | nil => cases hmem
  | cons kv2 rest ih =>
    rcases List.mem_cons.1 hmem with heq | hmem2
    · subst heq
      exact foldl_bfStep_isSome rest _ kv.1 (bfStep_self_isSome d kv)
    · exact ih _ hmem2

theorem getF_bfStep_present (d : JObj) (kv : String × JVal) (k : String) (x : JVal)
    (h : getF d k = some x) : getF (bfStep d kv) k = some x := by
  unfold bfStep
  by_cases hk : kv.1 = k
  · subst hk
    simp [h]
  · split
    · rw [getF_setF_ne _ _ _ _ hk]
      exact h
    · exact h

theorem getF_backfillDefaults_present (d : JObj) (k : String) (x : JVal)
    (h : getF d k = some x) : getF (backfillDefaults d) k = some x := by
  unfold backfillDefaults
  generalize createDefaultProgram = ds
  induction ds generalizing d with
  | nil => exact h
  | cons kv rest ih => exact ih _ (getF_bfStep_present d kv k x h)

theorem backfillDefaults_mem_isSome (d : JObj) (kv : String × JVal)
    (hmem : kv ∈ createDefaultProgram) :
    (getF (backfillDefaults d) kv.1).isSome :=
  foldl_bfStep_mem createDefaultProgram d kv hmem

theorem getF_mapWeeks_ne (d : JObj) (f : JVal → JVal) (k : String) (h : k ≠ "weeks") :
    getF (mapWeeks d f) k = getF d k := by
  unfold mapWeeks
  split
  · exact getF_setF_ne _ _ _ _ (Ne.symm h)
  · rfl

theorem getF_mapWeeks_weeks (d : JObj) (f : JVal → JVal) (ws : List JVal)
    (h : getF d "weeks" = some (.arr ws)) :
    getF (mapWeeks d f) "weeks" = some (.arr (ws.map f)) := by
  unfold mapWeeks
  rw [h]
  exact getF_setF_self _ _ _

theorem getF_migrateV2_ne (d : JObj) (v : Int) (k : String)
    (h1 : k ≠ "schemaVersion") (h2 : k ≠ "weeks") :
    getF (migrateV2 d v) k = getF d k := by
  unfold migrateV2
  split
  · rw [getF_setF_ne _ _ _ _ (Ne.symm h1), getF_mapWeeks_ne _ _ _ h2]
  · rfl

theorem getF_migrateV2_weeks (d : JObj) (v : Int) (ws : List JVal)
    (h : getF d "weeks" = some (.arr ws)) :
    getF (migrateV2 d v) "weeks" =
      some (.arr (if v < 2 then ws.map (migWeekLectures migLecAddRevisionCount) else ws)) := by
  unfold migrateV2
  split
  · rw [getF_setF_ne _ _ _ _ (by decide), getF_mapWeeks_weeks _ _ ws h]
  · rw [h]

theorem getF_migrateV3_ne (d : JObj) (v : Int) (k : String)
    (h1 : k ≠ "schemaVersion") (h2 : k ≠ "weeks") (h3 : k ≠ "bestStreak") :
    getF (migrateV3 d v) k = getF d k := by
  unfold migrateV3
  split
  · rw [getF_setF_ne _ _ _ _ (Ne.symm h1)]
    split
    · rw [getF_setF_ne _ _ _ _ (Ne.symm h3), getF_mapWeeks_ne _ _ _ h2]
    · rw [getF_mapWeeks_ne _ _ _ h2]
  · rfl

theorem getF_migrateV3_weeks (d : JObj) (v : Int) (ws : List JVal)
    (h : getF d "weeks" = some (.arr ws)) :
    getF (migrateV3 d v) "weeks" =
      some (.arr (if v < 3 then ws.map (migWeekLectures migLecAddNotes) else ws)) := by
  unfold migrateV3
  split
  · rw [getF_setF_ne _ _ _ _ (by decide)]
    split
    · rw [getF_setF_ne _ _ _ _ (by decide), getF_mapWeeks_weeks _ _ ws h]
    · rw [getF_mapWeeks_weeks _ _ ws h]
  · rw [h]

theorem getF_migrateV3_bestStreak_present (d : JObj) (v : Int) (x : JVal)
    (h : getF d "bestStreak" = some x) :
    getF (migrateV3 d v) "bestStreak" = some x := by
  unfold migrateV3
  split
  · rw [getF_setF_ne _ _ _ _ (by decide)]
    have hm : getF (mapWeeks d (migWeekLectures migLecAddNotes)) "bestStreak" = some x := by
      rw [getF_mapWeeks_ne _ _ _ (by decide)]
      exact h
    split
    · next hcond =>
      rw [hm] at hcond
      simp at hcond
    · exact hm
  · exact h

theorem getF_migrateV3_bestStreak_absent (d : JObj) (v : Int) (hv : v < 3)
    (h : getF d "bestStreak" = none) :
    getF (migrateV3 d v) "bestStreak" = some (.num (jsNumOr0 (getF d "streak"))) := by
  unfold migrateV3
  rw [if_pos hv]
  have hm : getF (mapWeeks d (migWeekLectures migLecAddNotes)) "bestStreak" = none := by
    rw [getF_mapWeeks_ne _ _ _ (by decide)]
    exact h
  have hs : getF (mapWeeks d (migWeekLectures migLecAddNotes)) "streak" = getF d "streak" :=
    getF_mapWeeks_ne _ _ _ (by decide)
  rw [getF_setF_ne _ _ _ _ (by decide)]
  rw [if_pos (by rw [hm]; rfl)]
  rw [getF_setF_self, hs]

theorem getF_migrateV4_ne (d : JObj) (v : Int) (k : String)
    (h1 : k ≠ "schemaVersion") (h2 : k ≠ "streakFreezes") :
    getF (migrateV4 d v) k = getF d k := by
  unfold migrateV4
  split
  · rw [getF_setF_ne _ _ _ _ (Ne.symm h1)]
    split
    · rw [getF_setF_ne _ _ _ _ (Ne.symm h2)]
    · rfl
  · rfl

theorem getF_migrateV4_schemaVersion (d : JObj) (v : Int) (hv : v < 4) :
    getF (migrateV4 d v) "schemaVersion" = some (.num 4) := by
  unfold migrateV4
  rw [if_pos hv]
  exact getF_setF_self _ _ _

theorem getF_migrateV4_streakFreezes_present (d : JObj) (v : Int) (x : JVal)
    (h : getF d "streakFreezes" = some x) :
    getF (migrateV4 d v) "streakFreezes" = some x := by
  unfold migrateV4
  split
  · rw [getF_setF_ne _ _ _ _ (by decide)]
    split
    · next hcond =>
      rw [h] at hcond
      simp at hcond
    · exact h
  · exact h

theorem getF_migrateV4_streakFreezes_absent (d : JObj) (v : Int) (hv : v < 4)
    (h : getF d "streakFreezes" = none) :
    getF (migrateV4 d v) "streakFreezes" = some (.num 0) := by
  unfold migrateV4
  rw [if_pos hv, getF_setF_ne _ _ _ _ (by decide), if_pos (by rw [h]; rfl),
    getF_setF_self]

theorem getJ_migWeekLectures_ne (wfs : JObj) (f : JVal → JVal) (k : String)
    (h : k ≠ "lectures") :
    getJ (migWeekLectures f (.obj wfs)) k = getF wfs k := by
  simp only [migWeekLectures]
  split
  · simp only [getJ]
    exact getF_setF_ne _ _ _ _ (Ne.symm h)
  · simp only [getJ]

theorem getJ_migWeekLectures_lectures (wfs : JObj) (f : JVal → JVal) (ls : List JVal)
    (h : getF wfs "lectures" = some (.arr ls)) :
    getJ (migWeekLectures f (.obj wfs)) "lectures" = some (.arr (ls.map f)) := by
  simp only [migWeekLectures, h, getJ]
  exact getF_setF_self _ _ _

theorem getJ_migLecAddRevisionCount_ne (lfs : JObj) (k : String)
    (h : k ≠ "revisionCount") :
    getJ (migLecAddRevisionCount (.obj lfs)) k = getF lfs k := by
  simp only [migLecAddRevisionCount]
  split
  · simp only [getJ]
    exact getF_setF_ne _ _ _ _ (Ne.symm h)
  · simp only [getJ]

theorem getJ_migLecAddRevisionCount_self (lfs : JObj) :
    getJ (migLecAddRevisionCount (.obj lfs)) "revisionCount" =
      some ((getF lfs "revisionCount").getD (.num 0)) := by
  simp only [migLecAddRevisionCount]
  rcases hx : getF lfs "revisionCount" with _ | x
  · rw [if_pos (show (none : Option JVal).isNone = true from rfl)]
    simp only [getJ]
    rw [getF_setF_self]
    rfl
  · rw [if_neg (by simp)]
    simp only [getJ]
    rw [hx]
    rfl

theorem getJ_migLecAddNotes_ne (lfs : JObj) (k : String) (h : k ≠ "notes") :
    getJ (migLecAddNotes (.obj lfs)) k = getF lfs k := by
  simp only [migLecAddNotes]
  split
  · simp only [getJ]
    exact getF_setF_ne _ _ _ _ (Ne.symm h)
  · simp only [getJ]

theorem getJ_migLecAddNotes_self (lfs : JObj) :
    getJ (migLecAddNotes (.obj lfs)) "notes" =
      some ((getF lfs "notes").getD (.str "")) := by
  simp only [migLecAddNotes]
  rcases hx : getF lfs "notes" with _ | x
  · rw [if_pos (show (none : Option JVal).isNone = true from rfl)]
    simp only [getJ]
    rw [getF_setF_self]
    rfl
  · rw [if_neg (by simp)]
    simp only [getJ]
    rw [hx]
    rfl

set_option maxHeartbeats 2000000 in
/-- **C5** Migrating a stored document at any older schema version
(absent `schemaVersion` reads as 0) applies every applicable versioned
transform in order — per-lecture `revisionCount := 0` and `notes := ""`
when missing, defaulting `bestStreak` (to `streak || 0`) and
`streakFreezes` (to 0) when missing — then back-fills still-missing
top-level fields from the default Program: the result carries
`schemaVersion` 4 and has every default top-level field, while
pre-existing `weeks` (up to the stated per-lecture additions),
`totalXP`, `streak`, `lastActiveDate`, `xpHistory`, `bestStreak` and
`streakFreezes` values are preserved, and the per-week/per-lecture
transforms change nothing but the named missing fields. -/
theorem migrate_roundTrip (data : JObj)
    (hv : jsNumOr0 (getF data "schemaVersion") < 4) :
    getF (migrate data) "schemaVersion" = some (.num 4)
    ∧ (∀ kv ∈ createDefaultProgram, (getF (migrate data) kv.1).isSome)
    ∧ (∀ ws, getF data "weeks" = some (.arr ws) →
        getF (migrate data) "weeks" =
          some (.arr (ws.map (migrateWeekTransform (jsNumOr0 (getF data "schemaVersion"))))))
    ∧ (∀ x, getF data "totalXP" = some x → getF (migrate data) "totalXP" = some x)
    ∧ (∀ x, getF data "streak" = some x → getF (migrate data) "streak" = some x)
    ∧ (∀ x, getF data "lastActiveDate" = some x →
        getF (migrate data) "lastActiveDate" = some x)
    ∧ (∀ x, getF data "xpHistory" = some x → getF (migrate data) "xpHistory" = some x)
    ∧ (∀ x, getF data "bestStreak" = some x → getF (migrate data) "bestStreak" = some x)
    ∧ (∀ x, getF data "streakFreezes" = some x →
        getF (migrate data) "streakFreezes" = some x)
    ∧ (jsNumOr0 (getF data "schemaVersion") < 3 → getF data "bestStreak" = none →
        getF (migrate data) "bestStreak" =
          some (.num (jsNumOr0 (getF data "streak"))))
    ∧ (getF data "streakFreezes" = none →
        getF (migrate data) "streakFreezes" = some (.num 0))
    ∧ (∀ wfs (f : JVal → JVal) ls, getF wfs "lectures" = some (.arr ls) →
        getJ (migWeekLectures f (.obj wfs)) "lectures" = some (.arr (ls.map f)))
    ∧ (∀ wfs (f : JVal → JVal) k, k ≠ "lectures" →
        getJ (migWeekLectures f (.obj wfs)) k = getF wfs k)
    ∧ (∀ lfs k, k ≠ "revisionCount" →
        getJ (migLecAddRevisionCount (.obj lfs)) k = getF lfs k)
    ∧ (∀ lfs, getJ (migLecAddRevisionCount (.obj lfs)) "revisionCount"
        = some ((getF lfs "revisionCount").getD (.num 0)))
    ∧ (∀ lfs k, k ≠ "notes" → getJ (migLecAddNotes (.obj lfs)) k = getF lfs k)
    ∧ (∀ lfs, getJ (migLecAddNotes (.obj lfs)) "notes"
        = some ((getF lfs "notes").getD (.str ""))) := by
  set v := jsNumOr0 (getF data "schemaVersion") with hvdef
  have hmig : migrate data =
      backfillDefaults (migrateV4 (migrateV3 (migrateV2 data v) v) v) := rfl
  have hpres : ∀ (k : String), k ≠ "schemaVersion" → k ≠ "weeks" → k ≠ "bestStreak" →
      k ≠ "streakFreezes" → ∀ x, getF data k = some x → getF (migrate data) k = some x := by
    intro k h1 h2 h3 h4 x hx
    rw [hmig]
    apply getF_backfillDefaults_present
    rw [getF_migrateV4_ne _ _ _ h1 h4, getF_migrateV3_ne _ _ _ h1 h2 h3,
      getF_migrateV2_ne _ _ _ h1 h2]
    exact hx
  refine ⟨?_, ?_, ?_,
    hpres "totalXP" (by decide) (by decide) (by decide) (by decide),
    hpres "streak" (by decide) (by decide) (by decide) (by decide),
    hpres "lastActiveDate" (by decide) (by decide) (by decide) (by decide),
    hpres "xpHistory" (by decide) (by decide) (by decide) (by decide),
    ?_, ?_, ?_, ?_,
    fun wfs f ls h => getJ_migWeekLectures_lectures wfs f ls h,
    fun wfs f k hk => getJ_migWeekLectures_ne wfs f k hk,
    fun lfs k hk => getJ_migLecAddRevisionCount_ne lfs k hk,
    fun lfs => getJ_migLecAddRevisionCount_self lfs,
    fun lfs k hk => getJ_migLecAddNotes_ne lfs k hk,
    fun lfs => getJ_migLecAddNotes_self lfs⟩
  · rw [hmig]
    exact getF_backfillDefaults_present _ _ _ (getF_migrateV4_schemaVersion _ _ hv)
  · intro kv hkv
    rw [hmig]
    exact backfillDefaults_mem_isSome _ kv hkv
  · intro ws hws
    rw [hmig]
    apply getF_backfillDefaults_present
    rw [getF_migrateV4_ne _ _ _ (by decide) (by decide)]
    have h1 := getF_migrateV2_weeks data v ws hws
    have h2 := getF_migrateV3_weeks (migrateV2 data v) v _ h1
    rw [h2]
    congr 2
    by_cases hv2 : v < 2 <;> by_cases hv3 : v < 3
    · rw [if_pos hv3, if_pos hv2, List.map_map]
      exact List.map_congr_left fun wk _ => by
        simp [migrateWeekTransform, hv2, hv3, Function.comp_def]
    · exact absurd (by omega) hv3
    · rw [if_pos hv3, if_neg hv2]
      exact List.map_congr_left fun wk _ => by simp [migrateWeekTransform, hv2, hv3]
    · rw [if_neg hv3, if_neg hv2]
      rw [List.map_congr_left (fun wk _ =>
        (by simp [migrateWeekTransform, hv2, hv3] : migrateWeekTransform v wk = id wk)),
        List.map_id]
  · intro x hx
    rw [hmig]
    apply getF_backfillDefaults_present
    rw [getF_migrateV4_ne _ _ _ (by decide) (by decide)]
    apply getF_migrateV3_bestStreak_present
    rw [getF_migrateV2_ne _ _ _ (by decide) (by decide)]
    exact hx
  · intro x hx
    rw [hmig]
    apply getF_backfillDefaults_present
    apply getF_migrateV4_streakFreezes_present
    rw [getF_migrateV3_ne _ _ _ (by decide) (by decide) (by decide),
      getF_migrateV2_ne _ _ _ (by decide) (by decide)]
    exact hx
  · intro h3 habs
    rw [hmig]
    apply getF_backfillDefaults_present
    rw [getF_migrateV4_ne _ _ _ (by decide) (by decide)]
    have h1 : getF (migrateV2 data v) "bestStreak" = none := by
      rw [getF_migrateV2_ne _ _ _ (by decide) (by decide)]
      exact habs
    rw [getF_migrateV3_bestStreak_absent _ _ h3 h1]
    congr 3
    rw [getF_migrateV2_ne _ _ _ (by decide) (by decide)]
  · intro habs
    rw [hmig]
    apply getF_backfillDefaults_present
    apply getF_migrateV4_streakFreezes_absent _ _ hv
    rw [getF_migrateV3_ne _ _ _ (by decide) (by decide) (by decide),
      getF_migrateV2_ne _ _ _ (by decide) (by decide)]
    exact habs

theorem migrate_roundTrip_witness :
    getF (migrate demoOldDoc) "schemaVersion" = some (.num 4)
    ∧ getF (migrate demoOldDoc) "totalXP" = some (.num 40) :=
  ⟨(migrate_roundTrip demoOldDoc (by decide)).1,
   (migrate_roundTrip demoOldDoc (by decide)).2.2.2.1 (.num 40) (by rfl)⟩

set_option maxHeartbeats 1000000 in
/-- **C7** `parseImportedBackup` rejects every input that is not a JSON
object with a `weeks` array and a numeric `totalXP`: it returns a
non-empty error string, and never an `ok` payload — so the migration
step is never reached on such input.  Every input passing the shape
checks yields `ok` with the migrated document. -/
theorem parseImportedBackup_guards (input : Option JVal) :
    (¬ backupShapeOK input →
      ∃ e, parseImportedBackup input = .error e ∧ e ≠ ""
        ∧ ∀ d, parseImportedBackup input ≠ .ok d)
    ∧ (∀ fs ws n, input = some (.obj fs) →
        getF fs "weeks" = some (.arr ws) → getF fs "totalXP" = some (.num n) →
        parseImportedBackup input = .ok (.obj (migrate fs))) := by
  constructor
  · intro hbad
    rcases input with _ | v
    · exact ⟨"Could not read file: invalid JSON.", rfl, by decide,
        fun d h => by simp [parseImportedBackup] at h⟩
    · cases v
      case null => exact ⟨"Not a valid JSON file.", rfl, by decide,
        fun d h => by simp [parseImportedBackup] at h⟩
      case bool b => exact ⟨"Not a valid JSON file.", rfl, by decide,
        fun d h => by simp [parseImportedBackup] at h⟩
      case num n => exact ⟨"Not a valid JSON file.", rfl, by decide,
        fun d h => by simp [parseImportedBackup] at h⟩
      case str s => exact ⟨"Not a valid JSON file.", rfl, by decide,
        fun d h => by simp [parseImportedBackup] at h⟩
      case arr elems => exact ⟨"Missing \"weeks\" — this is not an IIT Learn backup.",
        rfl, by decide, fun d h => by simp [parseImportedBackup] at h⟩
      case obj fs =>
        rcases hgw : getF fs "weeks" with _ | wv
        · exact ⟨"Missing \"weeks\" — this is not an IIT Learn backup.",
            by simp [parseImportedBackup, hgw], by decide,
            fun d h => by simp [parseImportedBackup, hgw] at h⟩
        · cases wv
          case arr ws =>
            rcases hgt : getF fs "totalXP" with _ | tv
            · exact ⟨"Missing \"totalXP\" — invalid backup file.",
                by simp [parseImportedBackup, hgw, hgt], by decide,
                fun d h => by simp [parseImportedBackup, hgw, hgt] at h⟩
            · cases tv
              case num n => exact absurd ⟨⟨ws, hgw⟩, ⟨n, hgt⟩⟩ hbad
              all_goals
                exact ⟨"Missing \"totalXP\" — invalid backup file.",
                  by simp [parseImportedBackup, hgw, hgt], by decide,
                  fun d h => by simp [parseImportedBackup, hgw, hgt] at h⟩
          all_goals
            exact ⟨"Missing \"weeks\" — this is not an IIT Learn backup.",
              by simp [parseImportedBackup, hgw], by decide,
              fun d h => by simp [parseImportedBackup, hgw] at h⟩
  · intro fs ws n hi hw ht
    subst hi
    simp [parseImportedBackup, hw, ht]

theorem parseImportedBackup_guards_witness :
    (∃ e, parseImportedBackup demoBadImport = .error e ∧ e ≠ ""
      ∧ ∀ d, parseImportedBackup demoBadImport ≠ .ok d)
    ∧ parseImportedBackup (some (.obj demoGoodImport)) =
        .ok (.obj (migrate demoGoodImport)) :=
  ⟨(parseImportedBackup_guards demoBadImport).1 (fun h => h),
   (parseImportedBackup_guards (some (.obj demoGoodImport))).2 demoGoodImport [] 40
     rfl (by rfl) (by rfl)⟩

end IITLearn
